import Mathlib

/- Verification of the blueprint-yml-validator repository: a shallow embedding
of its credential manager (src/port_common/settings.py), descriptor loader and
per-file pipeline (src/port_common/api.py), structural model
(src/port_common/models.py) and top-level orchestrator (src/main.py), together
with theorems settling the specified properties. -/

namespace PortV

/-! Character-list string utilities. Python's `in`, `startswith`, `endswith`
and `str.join` are modelled over `List Char` so that all predicates compute. -/

/-- Whether `pat` is a leading segment of `s` (character lists). -/
def hasPreChars : List Char → List Char → Bool
  | [], _ => true
  | _ :: _, [] => false
  | a :: as, b :: bs => a == b && hasPreChars as bs

/-- Whether `pat` occurs contiguously inside `s` (character lists). -/
def hasSubChars (pat : List Char) : List Char → Bool
  | [] => pat.isEmpty
  | b :: bs => hasPreChars pat (b :: bs) || hasSubChars pat bs

/-- Python's substring test `pat in s`. -/
def strContains (s pat : String) : Bool :=
  hasSubChars pat.data s.data

/-- Python's `s.endswith(post)`. -/
def strEndsWith (s post : String) : Bool :=
  hasPreChars post.data.reverse s.data.reverse

/-- Python's `s.startswith(pre)`. -/
def strStartsWith (s pre : String) : Bool :=
  hasPreChars pre.data s.data

/-- Python's `sep.join(parts)`. -/
def pyJoin (sep : String) : List String → String
  | [] => ""
  | [x] => x
  | x :: xs => x ++ sep ++ pyJoin sep xs

/-- Python's `str.lower()`. -/
def pyLower (s : String) : String :=
  String.mk (s.data.map Char.toLower)

/-- Python truthiness of an optional string: `None` and `""` are falsy. -/
def pyTruthy : Option String → Bool
  | none => false
  | some s => !s.isEmpty

/-! Filesystem model for the descriptor loader (src/port_common/api.py,
`find_yaml_files`). A path is a list of components relative to the current
working directory; a filesystem lists its regular files and its directories. -/

/-- A filesystem path, as the list of its components relative to the cwd. -/
abbrev FPath := List String

/-- A filesystem: the regular files and the directories it holds, each as a
path relative to the current working directory. -/
structure FS where
  files : List FPath
  dirs : List FPath

/-- Python's `str(path)`: components joined with a slash (relative paths have
no leading slash; a single-component path prints as the bare name). -/
def pathStr : FPath → String
  | [] => ""
  | c :: rest => if rest.isEmpty then c else c ++ "/" ++ pathStr rest

/-- Python's `Path.suffix` of one name: from the final dot onward, provided
that dot is neither the first nor the last character of the name. -/
def pySuffix (name : String) : String :=
  let cs := name.data
  let ext := (cs.reverse.takeWhile (fun c => c != '.')).reverse
  if ext.length != 0 && ext.length + 1 < cs.length then String.mk ('.' :: ext) else ""

/-- Whether a bare name is matched by the non-recursive glob pattern
`*.<ext>`: pathlib's glob matches every name that ends with the extension —
`*` can match the empty string and, unlike shell globbing, names beginning
with a dot are matched too. -/
def globName (ext : String) (name : String) : Bool :=
  strEndsWith name ext

/-- Python's `p.glob("*" + ext)` over the model: the files whose parent is
`d` and whose name matches the pattern, in filesystem order. -/
def globExt (fs : FS) (d : FPath) (ext : String) : List FPath :=
  fs.files.filter (fun f => f.dropLast == d && globName ext (f.getLast?.getD ""))

/-- The suffix test of `find_yaml_files` for an explicit file path:
`p.suffix.lower() in (".yaml", ".yml")`. -/
def yamlSuffixOk (p : FPath) : Bool :=
  let s := pyLower (pySuffix (p.getLast?.getD ""))
  s == ".yaml" || s == ".yml"

/-- The two glob scans of one directory in `find_yaml_files`, each filtered by
the `".github" not in str(f)` test, `*.yaml` matches first. -/
def findInDir (fs : FS) (p : FPath) : List FPath :=
  (globExt fs p ".yaml").filter (fun f => !(strContains (pathStr f) ".github"))
    ++ (globExt fs p ".yml").filter (fun f => !(strContains (pathStr f) ".github"))

/-- The loop of `find_yaml_files` over explicit paths: a directory contributes
its filtered direct glob matches, a YAML-suffixed file outside the exclusion
contributes itself, anything else contributes a warning line. -/
def find_yaml_files_go (fs : FS) : List FPath → List FPath × List String
  | [] => ([], [])
  | p :: rest =>
    let acc := find_yaml_files_go fs rest
    if fs.dirs.contains p then
      (findInDir fs p ++ acc.1, acc.2)
    else if fs.files.contains p && yamlSuffixOk p && !(strContains (pathStr p) ".github") then
      (p :: acc.1, acc.2)
    else
      (acc.1, ("Warning: " ++ pathStr p ++ " is not a YAML file or directory") :: acc.2)

/-- src/port_common/api.py `find_yaml_files(paths)`: with no paths (or an
empty list, which Python treats the same), the filtered direct glob matches of
the current working directory; otherwise the loop over the explicit paths.
Returns the files found and the warning lines printed. -/
def find_yaml_files (fs : FS) (paths : List FPath) : List FPath × List String :=
  if paths.isEmpty then (findInDir fs [], [])
  else find_yaml_files_go fs paths

/-! Credential manager (src/port_common/settings.py, `PortSettings`). Time is
an abstract instant in seconds; `_buffer_seconds` is initialised to 60. -/

/-- The mutable credential of `PortSettings`: `_access_token`,
`_token_expiry` and `_buffer_seconds`. -/
structure CredState where
  accessToken : Option String
  tokenExpiry : Nat
  bufferSeconds : Nat
deriving DecidableEq

/-- The initial credential set up in `PortSettings.__init__`: no token,
expiry 0, buffer 60. -/
def initCred : CredState := ⟨none, 0, 60⟩

/-- `PortSettings.token_expired`: `time.time() + _buffer_seconds >=
_token_expiry`. -/
def token_expired (now : Nat) (st : CredState) : Bool :=
  decide (now + st.bufferSeconds ≥ st.tokenExpiry)

/-- One response of the authentication endpoint: its status code, the
`accessToken` and `expiresIn` body fields (absent fields are `none`) and the
raw body text used in the error message. -/
structure AuthResp where
  status : Nat
  accessToken? : Option String
  expiresIn? : Option Nat
  text : String

/-- `PortSettings.get_access_token`: return the cached token when it is truthy
and not expired; otherwise issue one refresh request and either fail (non-200
status, or a falsy `accessToken` in the body — note the token field is
assigned before the falsiness check raises) or store the token and set the
expiry to `now + expiresIn` (default 3600). Returns the result, the new
credential state, and whether a refresh request was issued. -/
def get_access_token (now : Nat) (st : CredState) (resp : AuthResp) :
    Except String String × CredState × Bool :=
  if pyTruthy st.accessToken && !(token_expired now st) then
    (.ok (st.accessToken.getD ""), st, false)
  else if resp.status != 200 then
    (.error ("Failed to obtain access token: " ++ ("Failed to obtain access token: " ++ resp.text)),
      st, true)
  else
    let st1 : CredState := { st with accessToken := resp.accessToken? }
    if !(pyTruthy resp.accessToken?) then
      (.error ("Failed to obtain access token: " ++ "Access token not found in response"), st1, true)
    else
      let expiresIn := resp.expiresIn?.getD 3600
      (.ok (resp.accessToken?.getD ""), { st1 with tokenExpiry := now + expiresIn }, true)

/-! Per-file pipeline (src/port_common/api.py: `get_entity`,
`get_blueprint_schema`, `validate_required_fields`, `process_file`) against a
remote-service oracle, with an explicit trace of the endpoint calls made. -/

/-- One call to the remote catalog service. -/
inductive PortCall where
  | schemaFetch (blueprint : String)
  | entityGet (blueprint identifier : String)
deriving DecidableEq

/-- The remote service as an oracle: for each blueprint, the value extracted
at `blueprint.schema.required` (`none` when some level of the path is absent)
or the description of an exception raised during the fetch; and for each
blueprint/identifier pair, the HTTP status of the entity lookup. -/
structure Remote where
  schemaResp : String → Except String (Option (List String))
  entityStatus : String → String → Nat

/-- src/port_common/api.py `get_entity`: one lookup, `exists` iff the status
code equals 200. Returns the flag and the call made. -/
def get_entity (r : Remote) (identifier blueprint : String) : Bool × List PortCall :=
  (r.entityStatus blueprint identifier == 200, [.entityGet blueprint identifier])

/-- The parsed content of one descriptor file, restricted to what the pipeline
reads: the `identifier` and `blueprint` values (absent keys are `none`) and
the key set of the `properties` mapping (absent mapping gives `[]`, matching
`data.get("properties", {})`). -/
structure YamlData where
  identifier? : Option String
  blueprint? : Option String
  propKeys : List String

/-- src/port_common/models.py `PortYaml(**data)`: pydantic requires both
fields present, and the two validators reject falsy (empty) values. Returns
the identifier and blueprint on success, an error description otherwise. -/
def portYamlParse (d : YamlData) : Except String (String × String) :=
  match d.identifier?, d.blueprint? with
  | none, _ => .error "identifier: field required"
  | some _, none => .error "blueprint: field required"
  | some i, some b =>
    if i == "" then .error "Identifier must be provided"
    else if b == "" then .error "Blueprint must be provided"
    else .ok (i, b)

/-- src/port_common/api.py `validate_required_fields`: fetch the blueprint
schema (one call; an exception becomes a single error), extract the required
list (default `[]`), and when it is non-empty collect the required names
absent from the properties keys into one combined message. -/
def validate_required_fields (r : Remote) (d : YamlData) (blueprint : String) :
    List String × List PortCall :=
  match r.schemaResp blueprint with
  | .error e => (["Error validating required fields: " ++ e], [.schemaFetch blueprint])
  | .ok req? =>
    let requiredFields := req?.getD []
    if requiredFields.isEmpty then ([], [.schemaFetch blueprint])
    else
      let missingFields := requiredFields.filter (fun f => !(d.propKeys.contains f))
      if missingFields.isEmpty then ([], [.schemaFetch blueprint])
      else (["Missing required fields: " ++ pyJoin ", " missingFields], [.schemaFetch blueprint])

/-- The outcome of opening and `yaml.safe_load`-ing one file. -/
inductive FileContent where
  | parseFail (msg : String)
  | parsed (d : YamlData)

/-- src/port_common/api.py `process_file`: parse failure and structural
failure each return one error with no remote call; a non-empty schema check
returns exactly those errors (the existence check is skipped); otherwise the
existence lookup runs and a miss appends the update-only error. Returns the
error list and the trace of calls. -/
def process_file (r : Remote) (path : String) (fc : FileContent) :
    List String × List PortCall :=
  match fc with
  | .parseFail e => (["YAML parse error in " ++ path ++ ": " ++ e], [])
  | .parsed d =>
    match portYamlParse d with
    | .error e => (["Invalid YAML structure in " ++ path ++ ": " ++ e], [])
    | .ok (identifier, blueprint) =>
      let sv := validate_required_fields r d blueprint
      if !sv.1.isEmpty then sv
      else
        let ge := get_entity r identifier blueprint
        if !ge.1 then
          (["Entity '" ++ identifier ++ "' of blueprint '" ++ blueprint
              ++ "' does not exist — updates only allowed"], sv.2 ++ ge.2)
        else ([], sv.2 ++ ge.2)

/-! Top-level orchestrator (src/main.py, `main`). The per-file tasks run
under `asyncio.gather`, which stores each task's result at the task's own
index no matter when the task completes; a run is therefore modelled by the
list of per-file results together with an arbitrary completion log pairing
each task index with its result. -/

/-- The per-file results paired with their task indices, counting from `k`. -/
def withIdx {α : Type} : Nat → List α → List (Nat × α)
  | _, [] => []
  | k, a :: as => (k, a) :: withIdx (k + 1) as

/-- `asyncio.gather`: from a completion log (results tagged with their task
index, in completion order), the results slotted back into task order. -/
def gatherResults {α : Type} [Inhabited α] (n : Nat) (completed : List (Nat × α)) : List α :=
  (List.range n).map (fun i => (completed.lookup i).getD default)

/-- What one run of `main` produces: the exit status, the lines printed after
file discovery, and the remote calls issued. -/
structure RunOutcome where
  exitCode : Nat
  output : List String
  calls : List String
deriving DecidableEq

/-- src/main.py `main`, from file discovery onward: with no files, print the
notice and return (exit 0) without creating the client or any task; otherwise
gather the per-file error lists in task order, concatenate them, and either
print each with the failure marker and exit 1 or print the success line and
exit 0. `fCalls` gives the remote calls each file's task would issue;
`completed` is the completion log of the gather. -/
def mainRun (files : List String) (fCalls : String → List String)
    (completed : List (Nat × List String)) : RunOutcome :=
  if files.isEmpty then
    { exitCode := 0, output := ["No YAML files found to validate"], calls := [] }
  else
    let results := gatherResults files.length completed
    let errors := results.flatten
    let found := "Found " ++ toString files.length ++ " YAML files to validate"
    if errors.isEmpty then
      { exitCode := 0
        output := [found, "✅ All YAML files validated successfully."]
        calls := (files.map fCalls).flatten }
    else
      { exitCode := 1
        output := found :: errors.map (fun e => "❌ " ++ e)
        calls := (files.map fCalls).flatten }

/-! Interleaving model for the credential refresh race. Each concurrent
validation task runs `get_entity` (src/port_common/api.py): it checks
`settings.token_expired` and, when expired, runs `get_access_token` up to the
awaited refresh request; everything between two awaits executes atomically
under asyncio's cooperative scheduling, and the awaits are the only points at
which another task may run. -/

/-- Where one validation task stands: before its expiry check, suspended on
its own refresh request, holding a token, or done. -/
inductive TaskPC where
  | ready
  | refreshing
  | haveToken
  | finished
deriving DecidableEq

/-- The shared state of a run: the credential fields of the one `PortSettings`
object, each task's position, and how many refresh requests were issued. -/
structure RaceState where
  accessToken : Option String
  tokenExpiry : Nat
  pcs : List TaskPC
  refreshCount : Nat
deriving DecidableEq

/-- One scheduling step at time `now`. A ready task whose expiry check fires
runs the synchronous prefix of `get_access_token` (its cached-token test also
fails, the token being expired) and suspends on the refresh request; a ready
task with a fresh token proceeds; a suspended task's response arrives and
installs the token; a task holding a token finishes its entity lookup. -/
inductive raceStep (now : Nat) : RaceState → RaceState → Prop where
  | beginRefresh (s : RaceState) (i : Nat) (hpc : s.pcs.get? i = some .ready)
      (hexp : now + 60 ≥ s.tokenExpiry) :
      raceStep now s { s with pcs := s.pcs.set i .refreshing, refreshCount := s.refreshCount + 1 }
  | skipRefresh (s : RaceState) (i : Nat) (hpc : s.pcs.get? i = some .ready)
      (hexp : now + 60 < s.tokenExpiry) :
      raceStep now s { s with pcs := s.pcs.set i .haveToken }
  | completeRefresh (s : RaceState) (i : Nat) (tok : String) (exp : Nat)
      (hpc : s.pcs.get? i = some .refreshing) :
      raceStep now s
        { s with accessToken := some tok, tokenExpiry := now + exp, pcs := s.pcs.set i .haveToken }
  | finishTask (s : RaceState) (i : Nat) (hpc : s.pcs.get? i = some .haveToken) :
      raceStep now s { s with pcs := s.pcs.set i .finished }

/-- Two validation tasks starting with the empty credential of
`PortSettings.__init__`. -/
def raceInit : RaceState := ⟨none, 0, [.ready, .ready], 0⟩

/-- The raced state: both tasks suspended on their own refresh request, two
refresh requests issued. -/
def raceRaced : RaceState := ⟨none, 0, [.refreshing, .refreshing], 2⟩

/-! Concrete instances used by counterexamples and witnesses. -/

/-- A filesystem whose current working directory holds the single regular
file `app.github.yaml` (no directories). -/
def fsGithubName : FS := ⟨[["app.github.yaml"]], []⟩

/-- A filesystem whose current working directory holds the single regular
file `ok.yaml`. -/
def fsPlain : FS := ⟨[["ok.yaml"]], []⟩

/-- A remote service whose entity lookup always answers HTTP 204 (a 200-class
status) and whose schema fetch reports no required fields. -/
def remote204 : Remote := ⟨fun _ => .ok none, fun _ _ => 204⟩

/-- A remote service whose schema fetch reports the required fields `a` and
`b` for every blueprint and whose entity lookup always answers 200. -/
def remoteMissing : Remote := ⟨fun _ => .ok (some ["a", "b"]), fun _ _ => 200⟩

/-- A remote service whose schema fetch reports no required fields and whose
entity lookup always answers 404. -/
def remote404 : Remote := ⟨fun _ => .ok none, fun _ _ => 404⟩

/-- A descriptor with identifier `id1`, blueprint `bp1`, and only the
property `a`. -/
def dOnlyA : YamlData := ⟨some "id1", some "bp1", ["a"]⟩

/-- A descriptor with identifier `idX`, blueprint `bpY` and no properties. -/
def dIdBp : YamlData := ⟨some "idX", some "bpY", []⟩

/-- An authentication response with status 200 whose `accessToken` field is
present but empty. -/
def respEmptyTok : AuthResp := ⟨200, some "", some 100, "ok"⟩

/-- An authentication response with status 500 and no token. -/
def respBad : AuthResp := ⟨500, none, none, "server error"⟩

/-- An authentication response with status 200, token `tok` and a lifetime of
100 seconds. -/
def respGood : AuthResp := ⟨200, some "tok", some 100, "ok"⟩

/-- A discovered file list of two files. -/
def filesW : List String := ["a.yaml", "b.yaml"]

/-- Per-file errors: the first file fails, the second is clean. -/
def fErrW : String → List String := fun s => if s == "a.yaml" then ["bad a"] else []

/-- A completion log in which the second task finishes before the first. -/
def completedW : List (Nat × List String) := [(1, []), (0, ["bad a"])]

/-! Lemmas about the character-list string utilities. -/

theorem hasPreChars_append (pat t : List Char) : hasPreChars pat (pat ++ t) = true := by
  induction pat with
  | nil => rfl
  | cons a as ih => simp [hasPreChars, ih]

theorem hasPreChars_self (pat : List Char) : hasPreChars pat pat = true := by
  have h := hasPreChars_append pat []
  simpa using h

theorem hasPreChars_extend (pat s t : List Char) (h : hasPreChars pat s = true) :
    hasPreChars pat (s ++ t) = true := by
  induction pat generalizing s with
  | nil => rfl
  | cons a as ih =>
    cases s with
    | nil => simp [hasPreChars] at h
    | cons b bs =>
      simp only [hasPreChars, Bool.and_eq_true] at h
      simp [hasPreChars, h.1, ih bs h.2]

theorem hasSubChars_of_pre (pat s : List Char) (h : hasPreChars pat s = true) :
    hasSubChars pat s = true := by
  cases s with
  | nil =>
    cases pat with
    | nil => rfl
    | cons a as => simp [hasPreChars] at h
  | cons b bs => simp [hasSubChars, h]

theorem hasSubChars_append_left (pat s t : List Char) (h : hasSubChars pat t = true) :
    hasSubChars pat (s ++ t) = true := by
  induction s with
  | nil => simpa using h
  | cons b bs ih => simp [hasSubChars, ih]

theorem hasSubChars_append_right (pat s t : List Char) (h : hasSubChars pat s = true) :
    hasSubChars pat (s ++ t) = true := by
  induction s with
  | nil =>
    simp only [hasSubChars, List.isEmpty_iff] at h
    subst h
    cases t with
    | nil => rfl
    | cons c cs => simp [hasSubChars, hasPreChars]
  | cons b bs ih =>
    simp only [hasSubChars, Bool.or_eq_true] at h
    rcases h with h | h
    · simp only [List.cons_append, hasSubChars, Bool.or_eq_true]
      exact Or.inl (hasPreChars_extend pat (b :: bs) t h)
    · simp only [List.cons_append, hasSubChars, Bool.or_eq_true]
      exact Or.inr (ih h)

theorem strData_append (s t : String) : (s ++ t).data = s.data ++ t.data := rfl

theorem strContains_left_append (s t pat : String) (h : strContains s pat = true) :
    strContains (s ++ t) pat = true := by
  simpa [strContains, strData_append] using
    hasSubChars_append_right pat.data s.data t.data (by simpa [strContains] using h)

theorem strContains_right_append (s t pat : String) (h : strContains t pat = true) :
    strContains (s ++ t) pat = true := by
  simpa [strContains, strData_append] using
    hasSubChars_append_left pat.data s.data t.data (by simpa [strContains] using h)

theorem strContains_self (s : String) : strContains s s = true :=
  hasSubChars_of_pre s.data s.data (hasPreChars_self s.data)

theorem pyTruthy_none : pyTruthy none = false := rfl

theorem pyTruthy_some (s : String) : pyTruthy (some s) = !s.isEmpty := rfl

theorem strContains_pyJoin (sep : String) (l : List String) (f : String) (h : f ∈ l) :
    strContains (pyJoin sep l) f = true := by
  induction l with
  | nil => cases h
  | cons x xs ih =>
    cases xs with
    | nil =>
      simp only [List.mem_singleton] at h
      subst h
      exact strContains_self f
    | cons y ys =>
      rcases List.mem_cons.mp h with h | h
      · subst h
        show strContains (f ++ sep ++ pyJoin sep (y :: ys)) f = true
        exact strContains_left_append _ _ _ (strContains_left_append _ _ _ (strContains_self f))
      · show strContains (x ++ sep ++ pyJoin sep (y :: ys)) f = true
        exact strContains_right_append _ _ _ (ih h)

theorem strContains_pathStr (p : FPath) (c : String) (h : c ∈ p) :
    strContains (pathStr p) c = true := by
  induction p with
  | nil => cases h
  | cons a rest ih =>
    cases rest with
    | nil =>
      simp only [List.mem_singleton] at h
      subst h
      simpa [pathStr] using strContains_self c
    | cons r rs =>
      rcases List.mem_cons.mp h with h | h
      · subst h
        show strContains (if (r :: rs).isEmpty then c else c ++ "/" ++ pathStr (r :: rs)) c = true
        simpa using strContains_left_append _ _ _ (strContains_left_append _ _ _ (strContains_self c))
      · show strContains (if (r :: rs).isEmpty then a else a ++ "/" ++ pathStr (r :: rs)) c = true
        simpa using strContains_right_append _ _ _ (ih h)

/-! Lemmas about the descriptor loader. -/

theorem findInDir_mem (fs : FS) (d f : FPath) (h : f ∈ findInDir fs d) :
    f ∈ fs.files ∧ f.dropLast = d ∧ strContains (pathStr f) ".github" = false
      ∧ (globName ".yaml" (f.getLast?.getD "") = true ∨ globName ".yml" (f.getLast?.getD "") = true) := by
  simp only [findInDir, List.mem_append, List.mem_filter, globExt, Bool.and_eq_true,
    Bool.not_eq_true', beq_iff_eq] at h
  rcases h with ⟨⟨hmem, hdrop, hname⟩, hgh⟩ | ⟨⟨hmem, hdrop, hname⟩, hgh⟩
  · exact ⟨hmem, hdrop, hgh, Or.inl hname⟩
  · exact ⟨hmem, hdrop, hgh, Or.inr hname⟩

theorem findInDir_mem_iff (fs : FS) (d f : FPath) :
    f ∈ findInDir fs d ↔
      f ∈ fs.files ∧ f.dropLast = d ∧ strContains (pathStr f) ".github" = false
        ∧ (globName ".yaml" (f.getLast?.getD "") = true ∨ globName ".yml" (f.getLast?.getD "") = true) := by
  constructor
  · exact findInDir_mem fs d f
  · rintro ⟨hmem, hdrop, hgh, hname | hname⟩
    · simp only [findInDir, List.mem_append, List.mem_filter, globExt, Bool.and_eq_true,
        Bool.not_eq_true', beq_iff_eq]
      exact Or.inl ⟨⟨hmem, hdrop, hname⟩, hgh⟩
    · simp only [findInDir, List.mem_append, List.mem_filter, globExt, Bool.and_eq_true,
        Bool.not_eq_true', beq_iff_eq]
      exact Or.inr ⟨⟨hmem, hdrop, hname⟩, hgh⟩

theorem find_go_sound (fs : FS) (paths : List FPath) (f : FPath)
    (h : f ∈ (find_yaml_files_go fs paths).1) :
    (∃ p, p ∈ paths ∧ p ∈ fs.dirs ∧ f ∈ fs.files ∧ f.dropLast = p
        ∧ (globName ".yaml" (f.getLast?.getD "") = true
            ∨ globName ".yml" (f.getLast?.getD "") = true))
      ∨ (f ∈ paths ∧ f ∈ fs.files ∧ yamlSuffixOk f = true) := by
  induction paths with
  | nil => cases h
  | cons p rest ih =>
    rw [find_yaml_files_go] at h
    split at h
    · rename_i hdir
      rcases List.mem_append.mp h with h | h
      · obtain ⟨hmem, hdrop, -, hglob⟩ := findInDir_mem fs p f h
        exact Or.inl ⟨p, List.mem_cons_self p rest, by simpa using hdir, hmem, hdrop, hglob⟩
      · rcases ih h with ⟨q, hq, hrest⟩ | ⟨hin, hmem, hsfx⟩
        · exact Or.inl ⟨q, List.mem_cons_of_mem p hq, hrest⟩
        · exact Or.inr ⟨List.mem_cons_of_mem p hin, hmem, hsfx⟩
    · split at h
      · rename_i hcond
        simp only [Bool.and_eq_true] at hcond
        rcases List.mem_cons.mp h with h | h
        · subst h
          exact Or.inr ⟨List.mem_cons_self f rest, by simpa using hcond.1.1, hcond.1.2⟩
        · rcases ih h with ⟨q, hq, hrest⟩ | ⟨hin, hmem, hsfx⟩
          · exact Or.inl ⟨q, List.mem_cons_of_mem p hq, hrest⟩
          · exact Or.inr ⟨List.mem_cons_of_mem p hin, hmem, hsfx⟩
      · rcases ih h with ⟨q, hq, hrest⟩ | ⟨hin, hmem, hsfx⟩
        · exact Or.inl ⟨q, List.mem_cons_of_mem p hq, hrest⟩
        · exact Or.inr ⟨List.mem_cons_of_mem p hin, hmem, hsfx⟩

theorem find_go_github (fs : FS) (paths : List FPath) (f : FPath)
    (h : f ∈ (find_yaml_files_go fs paths).1) :
    strContains (pathStr f) ".github" = false := by
  induction paths with
  | nil => cases h
  | cons p rest ih =>
    rw [find_yaml_files_go] at h
    split at h
    · rcases List.mem_append.mp h with h | h
      · exact (findInDir_mem fs p f h).2.2.1
      · exact ih h
    · split at h
      · rename_i hcond
        rcases List.mem_cons.mp h with h | h
        · subst h
          simp only [Bool.and_eq_true, Bool.not_eq_true'] at hcond
          exact hcond.2
        · exact ih h
      · exact ih h

theorem find_go_warn (fs : FS) (paths : List FPath) (p : FPath)
    (hp : p ∈ paths) (hdir : p ∉ fs.dirs) (hfile : ¬(p ∈ fs.files ∧ yamlSuffixOk p = true)) :
    ("Warning: " ++ pathStr p ++ " is not a YAML file or directory")
      ∈ (find_yaml_files_go fs paths).2 := by
  induction paths with
  | nil => cases hp
  | cons q rest ih =>
    rw [find_yaml_files_go]
    rcases List.mem_cons.mp hp with hq | hq
    · subst hq
      split
      · rename_i hd
        exact absurd (by simpa using hd) hdir
      · split
        · rename_i hcond
          simp only [Bool.and_eq_true] at hcond
          exact absurd ⟨by simpa using hcond.1.1, hcond.1.2⟩ hfile
        · exact List.mem_cons_self _ _
    · split
      · exact ih hq
      · split
        · exact ih hq
        · exact List.mem_cons_of_mem _ (ih hq)

/-! Lemmas about the gather model. -/

theorem withIdx_mem {α : Type} (l : List α) (k i : Nat) (h : i < l.length) :
    (k + i, l.get ⟨i, h⟩) ∈ withIdx k l := by
  induction l generalizing k i with
  | nil => exact absurd h (Nat.not_lt_zero i)
  | cons a as ih =>
    cases i with
    | zero => simp [withIdx]
    | succ n =>
      have hn : n < as.length := Nat.lt_of_succ_lt_succ h
      have := ih (k + 1) n hn
      rw [show k + 1 + n = k + (n + 1) by omega] at this
      exact List.mem_cons_of_mem _ this

theorem withIdx_map_fst {α : Type} (l : List α) (k : Nat) :
    (withIdx k l).map Prod.fst = List.range' k l.length := by
  induction l generalizing k with
  | nil => rfl
  | cons a as ih => simp [withIdx, List.range', ih]

theorem lookup_eq_of_nodup {α : Type} (l : List (Nat × α)) (a : Nat) (b : α)
    (hnd : (l.map Prod.fst).Nodup) (hmem : (a, b) ∈ l) : l.lookup a = some b := by
  induction l with
  | nil => cases hmem
  | cons p t ih =>
    obtain ⟨k, v⟩ := p
    rcases List.mem_cons.mp hmem with h | h
    · obtain ⟨h1, h2⟩ := Prod.mk.injEq .. ▸ h
      subst h1; subst h2
      rw [List.lookup_cons]
      have hb : (a == a) = true := by simp
      rw [hb]
    · have hk : a ≠ k := by
        intro he
        subst he
        have hmf : a ∈ t.map Prod.fst := by
          exact List.mem_map.mpr ⟨(a, b), h, rfl⟩
        simp only [List.map_cons, List.nodup_cons] at hnd
        exact hnd.1 hmf
      rw [List.lookup_cons]
      have hb : (a == k) = false := by simpa using hk
      rw [hb]
      exact ih (by simp only [List.map_cons, List.nodup_cons] at hnd; exact hnd.2) h

theorem gatherResults_eq {α : Type} [Inhabited α] (res : List α) (completed : List (Nat × α))
    (hperm : completed.Perm (withIdx 0 res)) :
    gatherResults res.length completed = res := by
  have hnd : (completed.map Prod.fst).Nodup := by
    have h1 : (withIdx 0 res).map Prod.fst = List.range' 0 res.length := withIdx_map_fst res 0
    exact (hperm.map Prod.fst).nodup_iff.mpr (h1 ▸ List.nodup_range' 0 res.length)
  have hlook : ∀ i (h : i < res.length), completed.lookup i = some (res.get ⟨i, h⟩) := by
    intro i h
    apply lookup_eq_of_nodup _ _ _ hnd
    have hm := withIdx_mem res 0 i h
    rw [Nat.zero_add] at hm
    exact hperm.mem_iff.mpr hm
  apply List.ext_get
  · simp [gatherResults]
  · intro i h1 h2
    have hi : i < res.length := h2
    have hr : i < (List.range res.length).length := by simpa using hi
    simp only [gatherResults, List.get_eq_getElem, List.getElem_map, List.getElem_range]
    rw [hlook i hi]
    rfl

/-! Lemmas about the per-file pipeline. -/

theorem vrf_calls (r : Remote) (d : YamlData) (b : String) :
    (validate_required_fields r d b).2 = [PortCall.schemaFetch b] := by
  rw [validate_required_fields]
  rcases r.schemaResp b with e | req?
  · rfl
  · simp only []
    split
    · rfl
    · split <;> rfl

/-! Claim theorems. -/

/-- C1: the claim that at most one token-refresh request is ever issued
across concurrent validation tasks fails on the code. With two concurrent
tasks and the empty initial credential, the cooperative schedule that runs
each task through its expiry check before either refresh response arrives is
reachable, and it leaves both tasks suspended on their own refresh request
with two refresh requests issued: `get_access_token` guards its
check-then-refresh path with no lock, so every task that observes the stale
token before a refresh completes issues its own request. -/
theorem c1_refresh_race :
    Relation.ReflTransGen (raceStep 0) raceInit raceRaced ∧
      raceRaced.refreshCount = 2 ∧ raceRaced.pcs.count TaskPC.refreshing = 2 := by
  refine ⟨?_, rfl, rfl⟩
  have h1 : raceStep 0 raceInit (⟨none, 0, [.refreshing, .ready], 1⟩ : RaceState) :=
    raceStep.beginRefresh raceInit 0 rfl (by decide)
  have h2 : raceStep 0 (⟨none, 0, [.refreshing, .ready], 1⟩ : RaceState) raceRaced :=
    raceStep.beginRefresh ⟨none, 0, [.refreshing, .ready], 1⟩ 1 rfl (by decide)
  exact Relation.ReflTransGen.head h1 (Relation.ReflTransGen.head h2 Relation.ReflTransGen.refl)

/-- C2 counterexample: the claim's reading of the exclusion — files under the
`.github` subtree are excluded, and with no paths the result is exactly the
direct YAML children of the working directory under that rule — fails on the
code. In a working directory holding the single regular file
`app.github.yaml`, a direct `*.yaml` child that is not under any `.github`
directory, `find_yaml_files` with no paths returns nothing: the code tests
the substring `.github` against the whole path string, and the file's own
name contains it. -/
theorem c2_counterexample :
    (find_yaml_files fsGithubName []).1 = [] ∧
      ["app.github.yaml"] ∈ fsGithubName.files ∧
      (["app.github.yaml"] : FPath).dropLast = [] ∧
      globName ".yaml" "app.github.yaml" = true ∧
      ".github" ∉ (["app.github.yaml"] : FPath) := by
  refine ⟨by decide, by decide, rfl, by decide, by decide⟩

/-- C2 (amended): `find_yaml_files` returns, for explicit paths, only files
that are direct children of a listed directory matched by one of the
non-recursive `*.yaml`/`*.yml` globs, or listed files that carry a
`.yaml`/`.yml` suffix themselves (no recursion, nothing without the
extension); every returned path has no `.github` component (subtree
exclusion) and, more broadly, its printed form never contains the substring
`.github`; a listed path that is neither a directory nor a file with a YAML
suffix yields a non-fatal warning line; and with no paths the result is
exactly the direct `*.yaml`/`*.yml` glob matches of the current working
directory whose printed form does not contain the substring `.github` — an
exclusion by substring, strictly wider than the reserved `.github`
subtree. -/
theorem c2_find_descriptor_files :
    (∀ (fs : FS) (paths : List FPath) (f : FPath), paths ≠ [] →
        f ∈ (find_yaml_files fs paths).1 →
        (∃ p, p ∈ paths ∧ p ∈ fs.dirs ∧ f ∈ fs.files ∧ f.dropLast = p
            ∧ (globName ".yaml" (f.getLast?.getD "") = true
                ∨ globName ".yml" (f.getLast?.getD "") = true))
          ∨ (f ∈ paths ∧ f ∈ fs.files ∧ yamlSuffixOk f = true))
    ∧ (∀ (fs : FS) (paths : List FPath) (f : FPath), f ∈ (find_yaml_files fs paths).1 →
        strContains (pathStr f) ".github" = false ∧ ".github" ∉ f)
    ∧ (∀ (fs : FS) (paths : List FPath) (p : FPath), p ∈ paths → p ∉ fs.dirs →
        ¬(p ∈ fs.files ∧ yamlSuffixOk p = true) →
        ("Warning: " ++ pathStr p ++ " is not a YAML file or directory")
          ∈ (find_yaml_files fs paths).2)
    ∧ (∀ (fs : FS) (f : FPath), f ∈ (find_yaml_files fs []).1 ↔
        f ∈ fs.files ∧ f.dropLast = [] ∧ strContains (pathStr f) ".github" = false
          ∧ (globName ".yaml" (f.getLast?.getD "") = true
              ∨ globName ".yml" (f.getLast?.getD "") = true)) := by
  have hgh : ∀ (fs : FS) (paths : List FPath) (f : FPath), f ∈ (find_yaml_files fs paths).1 →
      strContains (pathStr f) ".github" = false := by
    intro fs paths f hf
    rw [find_yaml_files] at hf
    split at hf
    · exact (findInDir_mem fs [] f hf).2.2.1
    · exact find_go_github fs paths f hf
  refine ⟨?_, ?_, ?_, ?_⟩
  · intro fs paths f hne hf
    rw [find_yaml_files] at hf
    split at hf
    · rename_i he
      exact absurd (List.isEmpty_iff.mp he) hne
    · exact find_go_sound fs paths f hf
  · intro fs paths f hf
    refine ⟨hgh fs paths f hf, ?_⟩
    intro hcomp
    have := strContains_pathStr f ".github" hcomp
    rw [hgh fs paths f hf] at this
    cases this
  · intro fs paths p hp hdir hfile
    have hne : paths ≠ [] := by
      intro he
      subst he
      cases hp
    rw [find_yaml_files]
    split
    · rename_i he
      exact absurd (List.isEmpty_iff.mp he) hne
    · exact find_go_warn fs paths p hp hdir hfile
  · intro fs f
    show f ∈ findInDir fs [] ↔ _
    rw [findInDir_mem_iff]

/-- C2 witness: in a working directory holding the single file `ok.yaml`,
the amended characterisation puts `ok.yaml` in the default-scan result, and
the exclusion conjunct confirms its printed form is free of `.github`. -/
theorem c2_witness :
    ["ok.yaml"] ∈ (find_yaml_files fsPlain []).1 ∧
      strContains (pathStr ["ok.yaml"]) ".github" = false ∧
      ".github" ∉ (["ok.yaml"] : FPath) := by
  have h1 : ["ok.yaml"] ∈ (find_yaml_files fsPlain []).1 :=
    (c2_find_descriptor_files.2.2.2 fsPlain ["ok.yaml"]).mpr
      ⟨by decide, rfl, by decide, Or.inl (by decide)⟩
  have h2 := c2_find_descriptor_files.2.1 fsPlain [] ["ok.yaml"] h1
  exact ⟨h1, h2⟩

/-- C3: when the schema check of a structurally valid descriptor returns at
least one error (missing required fields, or a failed schema fetch),
`process_file` terminates with exactly those errors and its call trace is the
single schema fetch: the entity-existence endpoint is never called for that
file. -/
theorem c3_schema_short_circuit (r : Remote) (path : String) (d : YamlData)
    (i b : String) (hparse : portYamlParse d = .ok (i, b))
    (herr : (validate_required_fields r d b).1 ≠ []) :
    process_file r path (.parsed d) =
        ((validate_required_fields r d b).1, [PortCall.schemaFetch b]) ∧
      ∀ bb ii, PortCall.entityGet bb ii ∉ (process_file r path (.parsed d)).2 := by
  have hmain : process_file r path (.parsed d) =
      ((validate_required_fields r d b).1, [PortCall.schemaFetch b]) := by
    rw [process_file, hparse]
    have hie : (validate_required_fields r d b).1.isEmpty = false := by
      rcases Bool.eq_false_or_eq_true (validate_required_fields r d b).1.isEmpty with hb | hb
      · exact absurd (List.isEmpty_iff.mp hb) herr
      · exact hb
    simp only [hie, Bool.not_false, if_pos]
    rw [← vrf_calls r d b]
  refine ⟨hmain, ?_⟩
  intro bb ii hmem
  rw [hmain] at hmem
  simp at hmem

/-- C3 witness: with a blueprint schema requiring `a` and `b` and a
descriptor carrying only property `a`, the file errors with the schema
check's output and the only remote call is the schema fetch. -/
theorem c3_witness :
    process_file remoteMissing "f.yaml" (.parsed dOnlyA) =
      ((validate_required_fields remoteMissing dOnlyA "bp1").1, [PortCall.schemaFetch "bp1"]) :=
  (c3_schema_short_circuit remoteMissing "f.yaml" dOnlyA "id1" "bp1" rfl (by decide)).1

/-- C4 counterexample: the claim reads any 200-class response as existence,
but `get_entity` tests equality with 200 alone: against a service answering
204 — a 200-class status — the lookup reports non-existence. -/
theorem c4_counterexample :
    (get_entity remote204 "svc" "bpservice").1 = false ∧
      200 ≤ remote204.entityStatus "bpservice" "svc"
      ∧ remote204.entityStatus "bpservice" "svc" < 300 := by
  decide

/-- C4 (amended): `get_entity` reports existence exactly when the lookup's
status equals 200 (every other status, 2xx or 404 alike, reads as absence,
with no separate transport-failure case); and a descriptor that passes the
schema check but whose lookup status is not 200 produces exactly one
update-only error containing its identifier and blueprint verbatim. -/
theorem c4_entity_exists :
    (∀ (r : Remote) (i b : String), ((get_entity r i b).1 = true ↔ r.entityStatus b i = 200))
    ∧ (∀ (r : Remote) (path : String) (d : YamlData) (i b : String),
        portYamlParse d = .ok (i, b) → (validate_required_fields r d b).1 = [] →
        r.entityStatus b i ≠ 200 →
        ∃ m, (process_file r path (.parsed d)).1 = [m]
          ∧ strContains m i = true ∧ strContains m b = true) := by
  constructor
  · intro r i b
    simp [get_entity]
  · intro r path d i b hparse hok hst
    have hie : (validate_required_fields r d b).1.isEmpty = true := by
      rw [hok]
      rfl
    have hge : (get_entity r i b).1 = false := by
      simp [get_entity, hst]
    rw [process_file, hparse]
    simp only [hie, hge, Bool.not_true, Bool.not_false, if_false, if_true, Bool.false_eq_true,
      Bool.true_eq_false, ite_true, ite_false]
    refine ⟨"Entity '" ++ i ++ "' of blueprint '" ++ b
      ++ "' does not exist — updates only allowed", rfl, ?_, ?_⟩
    · exact strContains_left_append _ _ _ (strContains_left_append _ _ _
        (strContains_left_append _ _ _
          (strContains_right_append _ _ _ (strContains_self i))))
    · exact strContains_left_append _ _ _
        (strContains_right_append _ _ _ (strContains_self b))

/-- C4 witness: against a service answering 404 with no required fields, a
descriptor with identifier `idX` and blueprint `bpY` yields one update-only
error naming both. -/
theorem c4_witness :
    ∃ m, (process_file remote404 "g.yaml" (.parsed dIdBp)).1 = [m]
      ∧ strContains m "idX" = true ∧ strContains m "bpY" = true :=
  c4_entity_exists.2 remote404 "g.yaml" dIdBp "idX" "bpY" rfl rfl (by decide)

/-- C5 counterexample: the claim says refresh fails exactly on a non-200
status or an absent token field, but a 200 response whose `accessToken` field
is present and empty also fails: the code tests Python truthiness, not
presence. -/
theorem c5_counterexample :
    (∃ e, (get_access_token 0 initCred respEmptyTok).1 = .error e) ∧
      respEmptyTok.status = 200 ∧ respEmptyTok.accessToken? ≠ none := by
  refine ⟨⟨"Failed to obtain access token: " ++ "Access token not found in response", rfl⟩,
    rfl, by simp [respEmptyTok]⟩

/-- C5 (amended): once the refresh path runs (no truthy unexpired cached
token), `get_access_token` fails exactly when the response status is not 200
or the `accessToken` field is absent or empty (Python-falsy); on success it
stores the token and sets the expiry to now plus the reported lifetime,
defaulting to 3600 when the field is absent. -/
theorem c5_token_refresh (now : Nat) (st : CredState) (resp : AuthResp)
    (hstale : ¬(pyTruthy st.accessToken = true ∧ token_expired now st = false)) :
    ((∃ e, (get_access_token now st resp).1 = .error e) ↔
        resp.status ≠ 200 ∨ pyTruthy resp.accessToken? = false)
    ∧ (∀ (tok : String) (st2 : CredState) (issued : Bool),
        get_access_token now st resp = (.ok tok, st2, issued) →
        st2.accessToken = resp.accessToken? ∧ some tok = resp.accessToken?
          ∧ st2.tokenExpiry = now + resp.expiresIn?.getD 3600 ∧ issued = true) := by
  have hc : (pyTruthy st.accessToken && !(token_expired now st)) = false := by
    rcases Bool.eq_false_or_eq_true (pyTruthy st.accessToken) with h1 | h1
    · rcases Bool.eq_false_or_eq_true (token_expired now st) with h2 | h2
      · simp [h1, h2]
      · exact absurd ⟨h1, h2⟩ hstale
    · simp [h1]
  by_cases hs : resp.status = 200
  · rcases hA : resp.accessToken? with _ | s
    · have hres : get_access_token now st resp =
          (.error ("Failed to obtain access token: " ++ "Access token not found in response"),
            { st with accessToken := none }, true) := by
        simp [get_access_token, hc, hs, hA, pyTruthy_none]
      rw [hres]
      constructor
      · exact ⟨fun _ => Or.inr rfl, fun _ => ⟨_, rfl⟩⟩
      · intro tok st2 issued heq
        simp at heq
    · by_cases hsE : s.isEmpty = true
      · have hpt : pyTruthy (some s) = false := by
          rw [pyTruthy_some, hsE]
          rfl
        have hres : get_access_token now st resp =
            (.error ("Failed to obtain access token: " ++ "Access token not found in response"),
              { st with accessToken := some s }, true) := by
          simp [get_access_token, hc, hs, hA, pyTruthy_some, hsE]
        rw [hres]
        constructor
        · exact ⟨fun _ => Or.inr hpt, fun _ => ⟨_, rfl⟩⟩
        · intro tok st2 issued heq
          simp at heq
      · have hres : get_access_token now st resp =
            (.ok s, { st with accessToken := some s, tokenExpiry := now + resp.expiresIn?.getD 3600 }, true) := by
          simp [get_access_token, hc, hs, hA, pyTruthy_some, hsE]
        rw [hres]
        constructor
        · constructor
          · rintro ⟨e, he⟩
            simp at he
          · rintro (h | h)
            · exact absurd hs h
            · rw [pyTruthy_some] at h
              simp [hsE] at h
        · intro tok st2 issued heq
          simp only [Prod.mk.injEq, Except.ok.injEq] at heq
          obtain ⟨h1, h2, h3⟩ := heq
          subst h1
          rw [← h2]
          exact ⟨rfl, rfl, rfl, h3.symm⟩
  · have hb : (resp.status != 200) = true := by
      simpa [bne_iff_ne] using hs
    have hres : get_access_token now st resp =
        (.error ("Failed to obtain access token: "
            ++ ("Failed to obtain access token: " ++ resp.text)), st, true) := by
      simp [get_access_token, hc, hb]
    rw [hres]
    constructor
    · exact ⟨fun _ => Or.inl hs, fun _ => ⟨_, rfl⟩⟩
    · intro tok st2 issued heq
      simp at heq

/-- C5 witness: from the empty initial credential, a 500 response makes the
refresh fail. -/
theorem c5_witness : ∃ e, (get_access_token 0 initCred respBad).1 = .error e :=
  (c5_token_refresh 0 initCred respBad (by decide)).1.mpr (Or.inl (by decide))

/-- C6: with a fetched required list, the check errors with exactly one
combined message naming every missing required field when at least one is
missing, and produces no error when none is missing or when the service
reports an empty or absent required set. -/
theorem c6_check_required_fields :
    (∀ (r : Remote) (d : YamlData) (b : String) (req : List String),
        r.schemaResp b = .ok (some req) →
        ((∀ f ∈ req, d.propKeys.contains f = true) → (validate_required_fields r d b).1 = [])
        ∧ ((∃ f ∈ req, d.propKeys.contains f = false) →
            ∃ m, (validate_required_fields r d b).1 = [m]
              ∧ ∀ f ∈ req, d.propKeys.contains f = false → strContains m f = true))
    ∧ (∀ (r : Remote) (d : YamlData) (b : String), r.schemaResp b = .ok none →
        (validate_required_fields r d b).1 = []) := by
  constructor
  · intro r d b req hresp
    constructor
    · intro hall
      rw [validate_required_fields, hresp]
      simp only [Option.getD_some]
      split
      · rfl
      · have hfil : req.filter (fun f => !(d.propKeys.contains f)) = [] := by
          rw [List.filter_eq_nil_iff]
          intro a ha
          simpa using hall a ha
        simp only [hfil]
        rfl
    · rintro ⟨f, hf, hfc⟩
      rw [validate_required_fields, hresp]
      simp only [Option.getD_some]
      have hne : req.isEmpty = false := by
        rcases Bool.eq_false_or_eq_true req.isEmpty with hb | hb
        · rw [List.isEmpty_iff.mp hb] at hf
          cases hf
        · exact hb
      rw [hne]
      have hmem : f ∈ req.filter (fun g => !(d.propKeys.contains g)) :=
        List.mem_filter.mpr ⟨hf, by simpa using hfc⟩
      have hfe : (req.filter (fun g => !(d.propKeys.contains g))).isEmpty = false := by
        rcases Bool.eq_false_or_eq_true (req.filter (fun g => !(d.propKeys.contains g))).isEmpty
          with hb | hb
        · rw [List.isEmpty_iff.mp hb] at hmem
          cases hmem
        · exact hb
      simp only [hfe, Bool.false_eq_true, if_false, if_true, ite_false, ite_true]
      refine ⟨_, rfl, ?_⟩
      intro g hg hgc
      have hgm : g ∈ req.filter (fun x => !(d.propKeys.contains x)) :=
        List.mem_filter.mpr ⟨hg, by simpa using hgc⟩
      exact strContains_right_append _ _ _ (strContains_pyJoin ", " _ g hgm)
  · intro r d b hresp
    rw [validate_required_fields, hresp]
    rfl

/-- C6 witness: required fields `a` and `b` against properties holding only
`a` yields one combined message naming every missing field. -/
theorem c6_witness :
    ∃ m, (validate_required_fields remoteMissing dOnlyA "bp1").1 = [m]
      ∧ ∀ f ∈ ["a", "b"], dOnlyA.propKeys.contains f = false → strContains m f = true :=
  (c6_check_required_fields.1 remoteMissing dOnlyA "bp1" ["a", "b"] rfl).2
    ⟨"b", by decide, by decide⟩

/-- C7: a descriptor whose parsed content lacks the identifier or blueprint
field, or carries either as the empty string, makes `process_file` return one
structural error with an empty call trace: neither the schema endpoint nor the
existence endpoint is contacted. -/
theorem c7_structural_reject (r : Remote) (path : String) (d : YamlData)
    (h : d.identifier? = none ∨ d.blueprint? = none
        ∨ d.identifier? = some "" ∨ d.blueprint? = some "") :
    ∃ e, process_file r path (.parsed d) =
      (["Invalid YAML structure in " ++ path ++ ": " ++ e], []) := by
  obtain ⟨i?, b?, props⟩ := d
  rcases h with h | h | h | h
  · simp only [] at h
    subst h
    exact ⟨"identifier: field required", rfl⟩
  · simp only [] at h
    subst h
    cases i? with
    | none => exact ⟨"identifier: field required", rfl⟩
    | some i => exact ⟨"blueprint: field required", rfl⟩
  · simp only [] at h
    subst h
    cases b? with
    | none => exact ⟨"blueprint: field required", rfl⟩
    | some b => exact ⟨"Identifier must be provided", rfl⟩
  · simp only [] at h
    subst h
    cases i? with
    | none => exact ⟨"identifier: field required", rfl⟩
    | some i =>
      by_cases hi : i = ""
      · subst hi
        exact ⟨"Identifier must be provided", rfl⟩
      · have hb : (i == "") = false := by simpa using hi
        refine ⟨"Blueprint must be provided", ?_⟩
        rw [process_file, portYamlParse]
        simp [hb]

/-- C7 witness: an empty identifier is rejected structurally with no remote
call. -/
theorem c7_witness :
    ∃ e, process_file remoteMissing "h.yaml" (.parsed ⟨some "", some "bp", []⟩) =
      (["Invalid YAML structure in " ++ "h.yaml" ++ ": " ++ e], []) :=
  c7_structural_reject remoteMissing "h.yaml" ⟨some "", some "bp", []⟩
    (Or.inr (Or.inr (Or.inl rfl)))

/-- C8: with a non-empty file list, whatever order the concurrent per-file
tasks complete in, the run's aggregate report is the concatenation of the
per-file error lists in file-discovery order; the exit status is non-zero
exactly when that report is non-empty, and a run with an empty report prints
the single success line. -/
theorem c8_aggregate_report (files : List String) (fErr : String → List String)
    (fCalls : String → List String) (completed : List (Nat × List String))
    (hperm : completed.Perm (withIdx 0 (files.map fErr))) (hne : files ≠ []) :
    ((mainRun files fCalls completed).exitCode ≠ 0 ↔ (files.map fErr).flatten ≠ [])
    ∧ ((files.map fErr).flatten ≠ [] →
        (mainRun files fCalls completed).output =
          ("Found " ++ toString files.length ++ " YAML files to validate")
            :: ((files.map fErr).flatten.map (fun e => "❌ " ++ e)))
    ∧ ((files.map fErr).flatten = [] →
        (mainRun files fCalls completed).output =
          ["Found " ++ toString files.length ++ " YAML files to validate",
            "✅ All YAML files validated successfully."]) := by
  have hlen : files.length = (files.map fErr).length := (List.length_map files fErr).symm
  have hg : gatherResults files.length completed = files.map fErr := by
    rw [hlen]
    exact gatherResults_eq (files.map fErr) completed hperm
  have hfe : files.isEmpty = false := by
    rcases Bool.eq_false_or_eq_true files.isEmpty with hb | hb
    · exact absurd (List.isEmpty_iff.mp hb) hne
    · exact hb
  rw [mainRun]
  simp only [hfe, Bool.false_eq_true, if_false, ite_false, hg]
  by_cases hrep : (files.map fErr).flatten = []
  · have hri : (files.map fErr).flatten.isEmpty = true := by
      rw [hrep]
      rfl
    simp only [hri, if_true, ite_true]
    exact ⟨by simp [hrep], fun hx => absurd hrep hx, fun _ => by trivial⟩
  · have hri : (files.map fErr).flatten.isEmpty = false := by
      rcases Bool.eq_false_or_eq_true (files.map fErr).flatten.isEmpty with hb | hb
      · exact absurd (List.isEmpty_iff.mp hb) hrep
      · exact hb
    simp only [hri, Bool.false_eq_true, if_false, ite_false]
    exact ⟨by simp [hrep], fun _ => by trivial, fun hx => absurd hx hrep⟩

/-- C8 witness: two files whose tasks complete in reverse order still report
the first file's error first and exit non-zero. -/
theorem c8_witness :
    (mainRun filesW (fun _ => []) completedW).exitCode ≠ 0 ∧
      (mainRun filesW (fun _ => []) completedW).output =
        ("Found " ++ toString filesW.length ++ " YAML files to validate")
          :: ((filesW.map fErrW).flatten.map (fun e => "❌ " ++ e)) :=
  ⟨(c8_aggregate_report filesW fErrW (fun _ => []) completedW (by decide) (by decide)).1.mpr
      (by decide),
    (c8_aggregate_report filesW fErrW (fun _ => []) completedW (by decide) (by decide)).2.1
      (by decide)⟩

/-- C9: a run that discovers zero files prints the notice, exits with status
zero, and issues no network call of any kind — the code returns before the
client or any task is created. -/
theorem c9_no_files (fCalls : String → List String) (completed : List (Nat × List String)) :
    mainRun [] fCalls completed =
      { exitCode := 0, output := ["No YAML files found to validate"], calls := [] } := rfl

/-- C10: while the stored token is non-empty and its expiry is more than the
buffer beyond the current time, `get_access_token` returns the stored token,
issues no request, and leaves the credential unchanged. -/
theorem c10_token_cache_idempotent (now : Nat) (st : CredState) (t : String) (resp : AuthResp)
    (htok : st.accessToken = some t) (hne : t ≠ "")
    (hfresh : now + st.bufferSeconds < st.tokenExpiry) :
    get_access_token now st resp = (.ok t, st, false) := by
  have h1 : pyTruthy st.accessToken = true := by
    rw [htok, pyTruthy_some]
    have hte : t.isEmpty = false := by
      rcases Bool.eq_false_or_eq_true t.isEmpty with hb | hb
      · exact absurd ((String.isEmpty_iff t).mp hb) hne
      · exact hb
    rw [hte]
    rfl
  have h2 : token_expired now st = false := by
    rw [token_expired]
    exact decide_eq_false (by omega)
  rw [get_access_token, h1, h2]
  simp [htok]

/-- C10 witness: a cached non-empty token whose expiry lies beyond the buffer
is returned as is, with no request and no state change. -/
theorem c10_witness :
    get_access_token 10 ⟨some "tokX", 1000, 60⟩ respBad =
      (.ok "tokX", ⟨some "tokX", 1000, 60⟩, false) :=
  c10_token_cache_idempotent 10 ⟨some "tokX", 1000, 60⟩ "tokX" respBad rfl (by decide) (by decide)

end PortV
